import Mathlib

/-!
Shallow embedding of the `minicache` Go package (src/minicache.go).

Modelling choices:
* Time instants and durations are Go `int64` nanosecond values, modelled as
  unbounded `Int`.  Go's `time.Time.Add`/`UnixNano` are documented to be
  undefined when the result does not fit in an `int64`, so the embedding works
  with mathematical integers and does not model wrap-around.
* The stored value type `interface{}` becomes a type parameter `α`.
* The items map `map[string]Item` becomes a function `String → Option (Item α)`.
* Every operation that reads the wall clock (`time.Now()`) takes the sampled
  instant `now : Int` as an explicit argument; an operation that samples the
  clock once (e.g. `DeleteExpired`) takes a single such argument.
* Fallible operations return the untouched-or-updated store paired with the
  optional error, mirroring the Go methods that mutate the receiver and
  return an `error`.
* `gob` decoding is external to the package; `Load` therefore takes the
  decoder's outcome (`Except` of the decoded key/item pairs) as its input and
  embeds everything the package itself does with that outcome.
-/

namespace Minicache

/-- Go `Item`: a stored value plus its absolute expiration instant in
nanoseconds (`0` is the "never expires" sentinel used by `IsExpired`). -/
structure Item (α : Type) where
  Object : α
  Expiration : Int
  deriving DecidableEq

/-- Go constant `NoExpiration time.Duration = -1`. -/
def NoExpiration : Int := -1

/-- Go constant `defaultExpiration time.Duration = 0`. -/
def defaultExpiration : Int := 0

/-- Go `Item.IsExpired`: an item with `Expiration == 0` is never expired;
otherwise it is expired exactly when `now > Expiration`.  The wall-clock
sample `time.Now().UnixNano()` is the explicit argument `now`. -/
def Item.IsExpired (item : Item α) (now : Int) : Bool :=
  if item.Expiration = 0 then false else decide (now > item.Expiration)

/-- The items map of a `Minicache`, `map[string]Item`. -/
def Store (α : Type) : Type :=
  String → Option (Item α)

/-- Go map assignment `minic.items[k] = it`. -/
def update (s : Store α) (k : String) (it : Item α) : Store α :=
  fun k2 => if k2 = k then some it else s k2

/-- The expiration instant computed at the top of Go `Set` and `set`:
`d == defaultExpiration` is replaced by the cache's default, and only a
positive resulting duration yields a concrete instant `now + d`. -/
def resolveExpiration (d now dflt : Int) : Int :=
  let d2 := if d = defaultExpiration then dflt else d
  if d2 > 0 then now + d2 else 0

/-- Go `Set`: unconditionally insert or overwrite the entry for `k`
(`dflt` is the cache's configured `defaultExpiration` field). -/
def Set (s : Store α) (k : String) (v : α) (d now dflt : Int) : Store α :=
  update s k ⟨v, resolveExpiration d now dflt⟩

/-- Go unexported `set` (the lock-free insertion path shared by `Add` and
`Replace`); its body is identical to `Set` apart from locking. -/
def set (s : Store α) (k : String) (v : α) (d now dflt : Int) : Store α :=
  update s k ⟨v, resolveExpiration d now dflt⟩

/-- Go unexported `get`: look up `k` and report not-found when the entry is
absent or expired at `now`. -/
def get (s : Store α) (k : String) (now : Int) : Option α × Bool :=
  match s k with
  | none => (none, false)
  | some item => if item.IsExpired now then (none, false) else (some item.Object, true)

/-- Go `Get`: same lookup-and-liveness check as `get`, under the read lock. -/
def Get (s : Store α) (k : String) (now : Int) : Option α × Bool :=
  match s k with
  | none => (none, false)
  | some item => if item.IsExpired now then (none, false) else (some item.Object, true)

/-- Go `Add`: fail with "already exists" when `get` reports the key found
(live), otherwise insert via `set`. -/
def Add (s : Store α) (k : String) (v : α) (d now dflt : Int) :
    Store α × Option String :=
  if (get s k now).2 then (s, some ("Item " ++ k ++ " already exists"))
  else (set s k v d now dflt, none)

/-- Go `Replace`: fail with "does not exists" when `get` reports the key not
found (absent or expired), otherwise update via `set`. -/
def Replace (s : Store α) (k : String) (v : α) (d now dflt : Int) :
    Store α × Option String :=
  if (get s k now).2 then (set s k v d now dflt, none)
  else (s, some ("Item " ++ k ++ " does not exists"))

/-- Go `Delete`/`delete`: remove the key unconditionally. -/
def Delete (s : Store α) (k : String) : Store α :=
  fun k2 => if k2 = k then none else s k2

/-- Go `DeleteExpired`: one reaper sweep.  `now` is sampled once at sweep
start; an entry is removed exactly when `v.Expiration > 0 && now > v.Expiration`. -/
def DeleteExpired (s : Store α) (now : Int) : Store α :=
  fun k =>
    match s k with
    | none => none
    | some it => if it.Expiration > 0 ∧ now > it.Expiration then none else some it

/-- Liveness of a lookup result: found and not expired.  This is the
specification-side notion "a live entry exists for the key". -/
def isLive : Option (Item α) → Int → Bool
  | none, _ => false
  | some it, now => !(it.IsExpired now)

/-- The merge loop of Go `Load`: for each decoded pair, overwrite the current
entry exactly when it is absent (`!ok`) or expired at the check. -/
def mergeLoad (decoded : List (String × Item α)) (s : Store α) (now : Int) : Store α :=
  decoded.foldl
    (fun st kv =>
      match st kv.1 with
      | none => update st kv.1 kv.2
      | some obj => if obj.IsExpired now then update st kv.1 kv.2 else st)
    s

/-- Go `Load`: when decoding fails the error is returned before the store is
touched; on success the decoded mapping is merged key by key. -/
def Load (dec : Except String (List (String × Item α))) (s : Store α) (now : Int) :
    Store α × Option String :=
  match dec with
  | .error e => (s, some e)
  | .ok items => (mergeLoad items s now, none)

/-- The public operations of the package (plus the reaper sweep), used to
state the locking discipline. -/
inductive CacheOp where
  | get | set | add | replace | delete | count | flush | save | load | deleteExpired
  deriving DecidableEq

/-- Mode in which an operation acquires the cache's single `sync.RWMutex`. -/
inductive LockMode where
  | shared | exclusive
  deriving DecidableEq

/-- Lock acquisition of each operation, transcribed from the source:
`Get` uses `RLock`; `Set`, `Add`, `Replace`, `Delete`, `Count`, `Save`,
`Load` and `DeleteExpired` use `Lock`; `Flush` uses `RLock`. -/
def lockModeOf : CacheOp → LockMode
  | .get => .shared
  | .set => .exclusive
  | .add => .exclusive
  | .replace => .exclusive
  | .delete => .exclusive
  | .count => .exclusive
  | .flush => .shared
  | .save => .exclusive
  | .load => .exclusive
  | .deleteExpired => .exclusive

/-- Whether the operation mutates the items map (`Save` only reads it;
`Count` only reads its length; `Flush` reassigns it). -/
def mutatesStore : CacheOp → Bool
  | .get => false
  | .count => false
  | .save => false
  | _ => true

/-- Go stdlib `time.NewTicker` panics exactly when the interval is not
positive ("non-positive interval for NewTicker"). -/
def newTickerPanics (d : Int) : Bool :=
  decide (d ≤ 0)

/-- Go `gcLoop` begins with `time.NewTicker(minic.gcInterval)`, so the
reaper goroutine panics exactly when the interval is not positive. -/
def gcLoopPanics (gcInterval : Int) : Bool :=
  newTickerPanics gcInterval

/-- Go `NewMiniCache` unconditionally starts `gcLoop` as a goroutine, so
construction leads to a (process-crashing) panic exactly when the configured
reaper interval is not positive. -/
def NewMiniCachePanics (gcInterval : Int) : Bool :=
  gcLoopPanics gcInterval

/-- Concrete fixture store: `"x"` never expires, `"y"` expires at instant 2,
everything else absent. -/
def wStore : Store Nat := fun k =>
  if k = "x" then some ⟨9, 0⟩ else if k = "y" then some ⟨8, 2⟩ else none

/-- Concrete decoded snapshot fixture for `Load`. -/
def wDecoded : List (String × Item Nat) := [("a", ⟨5, 0⟩), ("b", ⟨7, 0⟩)]

/-- Concrete fixture store for `Load`: `"b"` live forever, `"a"` expires at
instant 3. -/
def wStoreL : Store Nat := fun k =>
  if k = "b" then some ⟨1, 0⟩ else if k = "a" then some ⟨2, 3⟩ else none

/-- Concrete fixture store whose single entry has a negative (pre-epoch)
expiration instant, as a decoded snapshot can produce. -/
def negStore : Store Nat := fun k => if k = "k" then some ⟨0, -1⟩ else none

/-- Concrete fixture store for the reaper sweep: `"a"` expires at instant 5,
`"b"` never expires. -/
def wSweepStore : Store Nat := fun k =>
  if k = "a" then some ⟨1, 5⟩ else if k = "b" then some ⟨2, 0⟩ else none

theorem resolveExpiration_zero (now dflt : Int) :
    resolveExpiration 0 now dflt = resolveExpiration dflt now dflt := by
  simp [resolveExpiration, defaultExpiration, ite_self]

/-- C4: an entry with the "never expire" sentinel (`Expiration = 0`) is live
at every time; an entry with a concrete (nonzero) expiration instant is live
exactly while `now ≤ Expiration` and expired strictly after it. -/
theorem isExpired_liveness (it : Item α) (now : Int) :
    (it.Expiration = 0 → it.IsExpired now = false) ∧
    (it.Expiration ≠ 0 → (it.IsExpired now = false ↔ now ≤ it.Expiration)) := by
  constructor
  · intro h
    simp [Item.IsExpired, h]
  · intro h
    simp [Item.IsExpired, h]

theorem isExpired_liveness_witness :
    ((⟨0, 0⟩ : Item Nat).IsExpired 99 = false) ∧
    ((⟨0, 5⟩ : Item Nat).IsExpired 5 = false) :=
  ⟨(isExpired_liveness ⟨0, 0⟩ 99).1 rfl,
   ((isExpired_liveness ⟨0, 5⟩ 5).2 (by decide)).mpr (by decide)⟩

/-- C5: `Set` resolves the stored expiration as follows: a positive ttl
yields `now + ttl`; a ttl of zero behaves exactly as if the cache's default
TTL had been passed (which may itself be "never"); the `NoExpiration` marker
yields the never-expire sentinel; and `Set` unconditionally inserts or
overwrites the entry for the key, leaving all other keys unchanged. -/
theorem set_resolves_expiration (s : Store α) (k : String) (v : α) (d now dflt : Int) :
    (0 < d → (Set s k v d now dflt) k = some ⟨v, now + d⟩) ∧
    (d = 0 → Set s k v d now dflt = Set s k v dflt now dflt) ∧
    (d = NoExpiration → (Set s k v d now dflt) k = some ⟨v, 0⟩) ∧
    (Set s k v d now dflt) k = some ⟨v, resolveExpiration d now dflt⟩ ∧
    (∀ k2, k2 ≠ k → (Set s k v d now dflt) k2 = s k2) := by
  refine ⟨?_, ?_, ?_, ?_, ?_⟩
  · intro h
    simp only [Set, update, if_pos rfl, resolveExpiration, defaultExpiration]
    split_ifs <;> simp_all
  · intro h
    subst h
    funext k2
    simp [Set, update, resolveExpiration_zero]
  · intro h
    subst h
    simp [Set, update, resolveExpiration, NoExpiration, defaultExpiration]
  · simp [Set, update]
  · intro k2 hne
    simp [Set, update, hne]

theorem set_resolves_expiration_witness :
    (Set (fun _ => none) "k" (1 : Nat) 7 100 0) "k" = some ⟨1, 107⟩ ∧
    Set (fun _ => none) "k" (1 : Nat) 0 100 9 = Set (fun _ => none) "k" 1 9 100 9 ∧
    (Set (fun _ => none) "k" (1 : Nat) NoExpiration 100 9) "k" = some ⟨1, 0⟩ :=
  ⟨(set_resolves_expiration _ "k" 1 7 100 0).1 (by decide),
   (set_resolves_expiration _ "k" 1 0 100 9).2.1 rfl,
   (set_resolves_expiration _ "k" 1 NoExpiration 100 9).2.2.1 rfl⟩

/-- C10: every strictly negative ttl — not only the `NoExpiration` sentinel
`-1` — makes `Set`, and the shared internal path `set` used by `Add` and
`Replace`, store the never-expire sentinel `0`, and the stored entry is live
at every time. -/
theorem negative_ttl_stores_never_expiring (s : Store α) (k : String) (v : α)
    (d now dflt : Int) (h : d < 0) :
    (Set s k v d now dflt) k = some ⟨v, 0⟩ ∧
    (set s k v d now dflt) k = some ⟨v, 0⟩ ∧
    (∀ t : Int, isLive ((Set s k v d now dflt) k) t = true) := by
  have hne : d ≠ (0 : Int) := by omega
  have he : resolveExpiration d now dflt = 0 := by
    simp only [resolveExpiration, defaultExpiration, if_neg hne]
    rw [if_neg (by omega : ¬ d > (0 : Int))]
  refine ⟨?_, ?_, ?_⟩ <;> simp [Set, set, update, he, isLive, Item.IsExpired]

theorem negative_ttl_stores_never_expiring_witness :
    (Set (fun _ => none) "k" (3 : Nat) (-5) 100 7) "k" = some ⟨3, 0⟩ ∧
    isLive ((Set (fun _ => none) "k" (3 : Nat) (-5) 100 7) "k") 999999 = true :=
  ⟨(negative_ttl_stores_never_expiring _ "k" 3 (-5) 100 7 (by decide)).1,
   (negative_ttl_stores_never_expiring _ "k" 3 (-5) 100 7 (by decide)).2.2 999999⟩

theorem get_found_iff_isLive (s : Store α) (k : String) (now : Int) :
    (get s k now).2 = isLive (s k) now := by
  cases hk : s k with
  | none => simp [get, isLive, hk]
  | some it => cases he : it.IsExpired now <;> simp [get, isLive, hk, he]

/-- C2: `Add` inserts the entry exactly when no live entry exists for the key
(an expired-but-not-reaped entry counts as absent and is overwritten);
otherwise it returns the "already exists" error with the store exactly
unchanged. -/
theorem add_inserts_iff_no_live_entry (s : Store α) (k : String) (v : α)
    (d now dflt : Int) :
    (isLive (s k) now = true →
      Add s k v d now dflt = (s, some ("Item " ++ k ++ " already exists"))) ∧
    (isLive (s k) now = false →
      Add s k v d now dflt = (set s k v d now dflt, none) ∧
      (Add s k v d now dflt).1 k = some ⟨v, resolveExpiration d now dflt⟩ ∧
      (∀ k2, k2 ≠ k → (Add s k v d now dflt).1 k2 = s k2)) := by
  constructor
  · intro h
    simp [Add, get_found_iff_isLive, h]
  · intro h
    have hAdd : Add s k v d now dflt = (set s k v d now dflt, none) := by
      simp [Add, get_found_iff_isLive, h]
    refine ⟨hAdd, ?_, ?_⟩
    · rw [hAdd]
      simp [set, update]
    · intro k2 hne
      rw [hAdd]
      simp [set, update, hne]

theorem add_inserts_iff_no_live_entry_witness :
    Add wStore "x" (7 : Nat) 0 5 0 = (wStore, some "Item x already exists") ∧
    (Add wStore "y" (7 : Nat) 3 5 0).1 "y" = some ⟨7, 8⟩ := by
  constructor
  · exact (add_inserts_iff_no_live_entry wStore "x" 7 0 5 0).1 (by decide)
  · have h2 := ((add_inserts_iff_no_live_entry wStore "y" 7 3 5 0).2 (by decide)).2.1
    simpa [resolveExpiration, defaultExpiration] using h2

/-- C3: `Replace` updates the entry (value and expiration) exactly when a
live entry exists for the key; when the key is absent or its entry expired it
returns the "does not exists" error with the store exactly unchanged. -/
theorem replace_updates_iff_live_entry (s : Store α) (k : String) (v : α)
    (d now dflt : Int) :
    (isLive (s k) now = false →
      Replace s k v d now dflt = (s, some ("Item " ++ k ++ " does not exists"))) ∧
    (isLive (s k) now = true →
      Replace s k v d now dflt = (set s k v d now dflt, none) ∧
      (Replace s k v d now dflt).1 k = some ⟨v, resolveExpiration d now dflt⟩ ∧
      (∀ k2, k2 ≠ k → (Replace s k v d now dflt).1 k2 = s k2)) := by
  constructor
  · intro h
    simp [Replace, get_found_iff_isLive, h]
  · intro h
    have hRep : Replace s k v d now dflt = (set s k v d now dflt, none) := by
      simp [Replace, get_found_iff_isLive, h]
    refine ⟨hRep, ?_, ?_⟩
    · rw [hRep]
      simp [set, update]
    · intro k2 hne
      rw [hRep]
      simp [set, update, hne]

theorem replace_updates_iff_live_entry_witness :
    Replace wStore "z" (7 : Nat) 3 5 0 = (wStore, some "Item z does not exists") ∧
    Replace wStore "y" (7 : Nat) 3 5 0 = (wStore, some "Item y does not exists") ∧
    (Replace wStore "x" (7 : Nat) 3 5 0).1 "x" = some ⟨7, 8⟩ := by
  refine ⟨?_, ?_, ?_⟩
  · exact (replace_updates_iff_live_entry wStore "z" 7 3 5 0).1 (by decide)
  · exact (replace_updates_iff_live_entry wStore "y" 7 3 5 0).1 (by decide)
  · have h2 := ((replace_updates_iff_live_entry wStore "x" 7 3 5 0).2 (by decide)).2.1
    simpa [resolveExpiration, defaultExpiration] using h2

/-- C7: when decoding fails, `Load` returns the decoding error and the store
is exactly unchanged — no key is added, removed or modified. -/
theorem load_error_leaves_store_unchanged (dec : Except String (List (String × Item α)))
    (s : Store α) (now : Int) (e : String) (h : dec = .error e) :
    Load dec s now = (s, some e) := by
  subst h
  rfl

theorem load_error_leaves_store_unchanged_witness :
    Load (.error "unexpected EOF") ((fun _ => none) : Store Nat) 0 =
      ((fun _ => none), some "unexpected EOF") :=
  load_error_leaves_store_unchanged _ _ 0 _ rfl

theorem mergeLoad_cons (k1 : String) (v1 : Item α) (rest : List (String × Item α))
    (s : Store α) (now : Int) :
    mergeLoad ((k1, v1) :: rest) s now =
      mergeLoad rest
        (match s k1 with
         | none => update s k1 v1
         | some obj => if obj.IsExpired now then update s k1 v1 else s) now := rfl

theorem loadStep_ne (s : Store α) (k1 : String) (v1 : Item α) (now : Int)
    (k : String) (hne : k ≠ k1) :
    (match s k1 with
     | none => update s k1 v1
     | some obj => if obj.IsExpired now then update s k1 v1 else s) k = s k := by
  cases hk : s k1 with
  | none =>
    show update s k1 v1 k = s k
    simp [update, hne]
  | some obj =>
    show (if obj.IsExpired now then update s k1 v1 else s) k = s k
    by_cases he : obj.IsExpired now = true
    · rw [if_pos he]
      simp [update, hne]
    · rw [if_neg he]

theorem loadStep_self (s : Store α) (k : String) (v : Item α) (now : Int) :
    (match s k with
     | none => update s k v
     | some obj => if obj.IsExpired now then update s k v else s) k =
      if isLive (s k) now then s k else some v := by
  cases hk : s k with
  | none =>
    show update s k v k =
      if isLive (none : Option (Item α)) now then (none : Option (Item α)) else some v
    simp [update, isLive]
  | some obj =>
    show (if obj.IsExpired now then update s k v else s) k =
      if isLive (some obj) now then some obj else some v
    by_cases he : obj.IsExpired now = true
    · rw [if_pos he]
      simp [update, isLive, he]
    · rw [if_neg he]
      simp only [Bool.not_eq_true] at he
      simp [isLive, he, hk]

theorem mergeLoad_not_mem (decoded : List (String × Item α)) (now : Int) (k : String) :
    ∀ s : Store α, k ∉ decoded.map Prod.fst → mergeLoad decoded s now k = s k := by
  induction decoded with
  | nil => intro s _; rfl
  | cons kv rest ih =>
    obtain ⟨k1, v1⟩ := kv
    intro s h
    simp only [List.map_cons, List.mem_cons] at h
    push_neg at h
    obtain ⟨h1, h2⟩ := h
    rw [mergeLoad_cons, ih _ h2]
    exact loadStep_ne s k1 v1 now k h1

theorem mergeLoad_mem (decoded : List (String × Item α)) (now : Int) (k : String)
    (v : Item α) :
    ∀ s : Store α, (decoded.map Prod.fst).Nodup → (k, v) ∈ decoded →
      mergeLoad decoded s now k = if isLive (s k) now then s k else some v := by
  induction decoded with
  | nil => intro s _ hmem; cases hmem
  | cons kv rest ih =>
    obtain ⟨k1, v1⟩ := kv
    intro s hnd hmem
    simp only [List.map_cons, List.nodup_cons] at hnd
    rw [mergeLoad_cons]
    rcases List.mem_cons.mp hmem with heq | htail
    · cases heq
      rw [mergeLoad_not_mem rest now k _ hnd.1]
      exact loadStep_self s k v now
    · have hkmem : k ∈ rest.map Prod.fst :=
        List.mem_map.mpr ⟨(k, v), htail, rfl⟩
      have hne : k ≠ k1 := fun hh => hnd.1 (hh ▸ hkmem)
      have hstep : ∀ st : Store α, st k = s k →
          mergeLoad rest st now k = if isLive (s k) now then s k else some v := by
        intro st hst
        rw [ih st hnd.2 htail, hst]
      exact hstep _ (loadStep_ne s k1 v1 now k hne)

/-- C1: `Load` merges a decoded snapshot key by key: a decoded entry
overwrites/creates the store entry exactly when the key is absent or its
current entry is expired at merge time; when a live entry is present the
decoded entry is discarded and a subsequent `Get` still returns the pre-Load
value; keys outside the snapshot are untouched. -/
theorem load_merges_snapshot_key_by_key (decoded : List (String × Item α))
    (s : Store α) (now : Int) (k : String) (v : Item α)
    (hnd : (decoded.map Prod.fst).Nodup) (hmem : (k, v) ∈ decoded) :
    (isLive (s k) now = false → (Load (.ok decoded) s now).1 k = some v) ∧
    (∀ a, s k = some a → a.IsExpired now = false →
      (Load (.ok decoded) s now).1 k = some a ∧
      Get ((Load (.ok decoded) s now).1) k now = (some a.Object, true)) ∧
    (∀ k2, k2 ∉ decoded.map Prod.fst → (Load (.ok decoded) s now).1 k2 = s k2) := by
  have hmerge := mergeLoad_mem decoded now k v s hnd hmem
  refine ⟨?_, ?_, ?_⟩
  · intro h
    show mergeLoad decoded s now k = some v
    rw [hmerge, h]
    simp
  · intro a ha hexp
    have hlive : isLive (s k) now = true := by simp [isLive, ha, hexp]
    have h1 : (Load (.ok decoded) s now).1 k = some a := by
      show mergeLoad decoded s now k = some a
      rw [hmerge, hlive]
      simp [ha]
    refine ⟨h1, ?_⟩
    show Get (mergeLoad decoded s now) k now = (some a.Object, true)
    have h1m : mergeLoad decoded s now k = some a := h1
    simp [Get, h1m, hexp]
  · intro k2 h2
    exact mergeLoad_not_mem decoded now k2 s h2

theorem load_merges_snapshot_key_by_key_witness :
    (Load (.ok wDecoded) wStoreL 10).1 "a" = some ⟨5, 0⟩ ∧
    (Load (.ok wDecoded) wStoreL 10).1 "b" = some ⟨1, 0⟩ ∧
    Get ((Load (.ok wDecoded) wStoreL 10).1) "b" 10 = (some 1, true) ∧
    (Load (.ok wDecoded) wStoreL 10).1 "c" = wStoreL "c" := by
  refine ⟨?_, ?_, ?_, ?_⟩
  · exact (load_merges_snapshot_key_by_key wDecoded wStoreL 10 "a" ⟨5, 0⟩
      (by decide) (by decide)).1 (by decide)
  · exact ((load_merges_snapshot_key_by_key wDecoded wStoreL 10 "b" ⟨7, 0⟩
      (by decide) (by decide)).2.1 ⟨1, 0⟩ (by decide) (by decide)).1
  · exact ((load_merges_snapshot_key_by_key wDecoded wStoreL 10 "b" ⟨7, 0⟩
      (by decide) (by decide)).2.1 ⟨1, 0⟩ (by decide) (by decide)).2
  · exact (load_merges_snapshot_key_by_key wDecoded wStoreL 10 "b" ⟨7, 0⟩
      (by decide) (by decide)).2.2 "c" (by decide)

/-- C6 counterexample: in the store whose key `"k"` holds an entry with the
concrete (nonzero) expiration instant `-1`, which is strictly before the
sweep's `now = 1` — and which `IsExpired` does treat as expired — a
`DeleteExpired` sweep does not remove the entry, because the sweep's guard
requires `Expiration > 0`.  This refutes the claim that a sweep removes every
entry whose expiration is concrete and strictly before `now`. -/
theorem deleteExpired_misses_negative_expiration :
    (DeleteExpired negStore 1) "k" = some ⟨0, -1⟩ ∧
    ((⟨0, -1⟩ : Item Nat).Expiration ≠ 0 ∧ (⟨0, -1⟩ : Item Nat).Expiration < 1) ∧
    (⟨0, -1⟩ : Item Nat).IsExpired 1 = true := by
  refine ⟨by decide, by decide, by decide⟩

/-- C6 (amended): one sweep, with its single sampled `now`, removes exactly
the entries whose expiration instant is strictly positive and strictly before
`now`, and removes nothing else; in particular entries with the "never
expire" sentinel `0` are never removed (and neither are entries with a
negative expiration instant). -/
theorem deleteExpired_removes_exactly_positive_past (s : Store α) (now : Int)
    (k : String) (it : Item α) (hk : s k = some it) :
    ((DeleteExpired s now) k = none ↔ (0 < it.Expiration ∧ it.Expiration < now)) ∧
    (¬(0 < it.Expiration ∧ it.Expiration < now) → (DeleteExpired s now) k = some it) ∧
    (it.Expiration = 0 → (DeleteExpired s now) k = some it) := by
  have hD : (DeleteExpired s now) k =
      if it.Expiration > 0 ∧ now > it.Expiration then none else some it := by
    simp only [DeleteExpired, hk]
  refine ⟨?_, ?_, ?_⟩
  · rw [hD]
    split_ifs with hc
    · exact iff_of_true rfl ⟨hc.1, hc.2⟩
    · exact iff_of_false (by simp) (fun hcc => hc ⟨hcc.1, hcc.2⟩)
  · intro hn
    rw [hD, if_neg (fun hcc => hn ⟨hcc.1, hcc.2⟩)]
  · intro h0
    rw [hD, if_neg (by omega)]

theorem deleteExpired_removes_exactly_positive_past_witness :
    (DeleteExpired wSweepStore 10) "a" = none ∧
    (DeleteExpired wSweepStore 10) "b" = some ⟨2, 0⟩ :=
  ⟨(deleteExpired_removes_exactly_positive_past wSweepStore 10 "a" ⟨1, 5⟩
      (by decide)).1.mpr (by decide),
   (deleteExpired_removes_exactly_positive_past wSweepStore 10 "b" ⟨2, 0⟩
      (by decide)).2.2 rfl⟩

/-- C8: the code contradicts the claim: `NewMiniCache` unconditionally starts
`gcLoop`, whose first action `time.NewTicker(gcInterval)` panics for every
non-positive interval, so constructing a cache with a zero or negative reaper
interval crashes instead of disabling automatic reaping. -/
theorem newMiniCache_nonpositive_interval_panics :
    NewMiniCachePanics 0 = true ∧ NewMiniCachePanics (-1) = true := by
  decide

/-- C9: the code contradicts the claim: `Flush` mutates the items map while
holding the single reader/writer lock only in shared mode (`RLock`), so it is
not an exclusively locked mutation and can interleave with other lock
holders; every other mutating operation does use the exclusive mode. -/
theorem flush_mutates_under_shared_lock :
    mutatesStore CacheOp.flush = true ∧
    lockModeOf CacheOp.flush = LockMode.shared ∧
    lockModeOf CacheOp.flush ≠ LockMode.exclusive ∧
    (∀ op : CacheOp, op ≠ CacheOp.flush → mutatesStore op = true →
      lockModeOf op = LockMode.exclusive) := by
  refine ⟨rfl, rfl, by decide, ?_⟩
  intro op h1 h2
  cases op <;> simp_all [mutatesStore, lockModeOf]

end Minicache
